import Mathlib

/-!
Verification of the quiz text-to-record parser (`parsing/wayground_question_parser.py`)
and the data-processing part of the two Excel exporters.

Lines are modelled as lists of characters. The three compiled regular expressions
of the source module (`QUESTION_NUM_PREFIX`, `ANSWER_LINE_PATTERN`,
`ANSWER_DECL_PATTERN`) are translated into executable matching functions, and the
two parsing functions (`split_into_blocks`, `parse_question_block`) are translated
loop by loop.
-/

/-- A text line, modelled as its list of characters. -/


abbrev Line := List Char

/-- Convert a string literal to a `Line`. -/
def toL (s : String) : Line := s.toList

/-- Python `str.strip()` whitespace set (ASCII part): space, tab, LF, CR, VT, FF. -/
def isPySpace (c : Char) : Bool :=
  c == ' ' || c == '\t' || c == '\n' || c == '\r' || c == '\x0b' || c == '\x0c'

/-- Python `str.lower()` on one ASCII character. -/
def toLowerCh (c : Char) : Char :=
  if 65 ≤ c.toNat && c.toNat ≤ 90 then Char.ofNat (c.toNat + 32) else c

/-- Python `str.upper()` on one ASCII character. -/
def toUpperCh (c : Char) : Char :=
  if 97 ≤ c.toNat && c.toNat ≤ 122 then Char.ofNat (c.toNat - 32) else c

/-- An ASCII digit, the `\d` class of `QUESTION_NUM_PREFIX`. -/
def isDigitCh (c : Char) : Bool := 48 ≤ c.toNat && c.toNat ≤ 57

/-- The character class `[A-Da-d]` of `ANSWER_LINE_PATTERN` and `ANSWER_DECL_PATTERN`. -/
def isAnswerLetter (c : Char) : Bool :=
  (65 ≤ c.toNat && c.toNat ≤ 68) || (97 ≤ c.toNat && c.toNat ≤ 100)

/-- The membership test `line[0] in 'ABCDabc'` used by the segmenter heuristic and
the continuation-line test (note: lowercase `d` is absent in the source string). -/
def inABCDabc (c : Char) : Bool :=
  c == 'A' || c == 'B' || c == 'C' || c == 'D' || c == 'a' || c == 'b' || c == 'c'

/-- Python `str.lstrip()`. -/
def lstripL (l : Line) : Line := l.dropWhile isPySpace

/-- Python `str.rstrip()`. -/
def rstripL (l : Line) : Line := (l.reverse.dropWhile isPySpace).reverse

/-- Python `str.strip()`. -/
def stripL (l : Line) : Line := lstripL (rstripL l)

/-- Pattern `ANSWER_LINE_PATTERN = re.compile(r'^\s*([A-Da-d])[\.\)]\s*(.*)')`, applied with
`re.match`: returns the letter (group 1) and the trailing text (group 2). -/
def matchAnswerLine (l : Line) : Option (Char × Line) :=
  match lstripL l with
  | c :: p :: rest =>
    if isAnswerLetter c && (p == '.' || p == ')') then
      some (c, rest.dropWhile isPySpace)
    else none
  | _ => none

/-- Case-insensitive consumption of a fixed word, for the `ANSWER` literal matched
under `re.IGNORECASE`; returns the rest of the input on success. -/
def stripCIWord : List Char → Line → Option Line
  | [], rest => some rest
  | w :: ws, c :: rest => if toLowerCh c == toLowerCh w then stripCIWord ws rest else none
  | _ :: _, [] => none

/-- Pattern `ANSWER_DECL_PATTERN = re.compile(r'^\s*ANSWER\s*:\s*([A-Da-d])', re.IGNORECASE)`,
applied with `re.match`: returns the declared letter (group 1). -/
def matchAnswerDecl (l : Line) : Option Char :=
  match stripCIWord (toL "answer") (lstripL l) with
  | none => none
  | some r1 =>
    match r1.dropWhile isPySpace with
    | ':' :: r2 =>
      match r2.dropWhile isPySpace with
      | c :: _ => if isAnswerLetter c then some c else none
      | [] => none
    | _ => none

/-- Substitution `QUESTION_NUM_PREFIX.sub('', text)` for `r'^\s*\d+\s*[.)]\s*'`: remove a leading
numbering marker such as `"12. "` or `"3) "`; anything else is left unchanged. -/
def stripQNum (l : Line) : Line :=
  let r1 := l.dropWhile isPySpace
  let ds := r1.takeWhile isDigitCh
  let r2 := r1.dropWhile isDigitCh
  if ds.isEmpty then l
  else
    match r2.dropWhile isPySpace with
    | c :: rest => if c == '.' || c == ')' then rest.dropWhile isPySpace else l
    | [] => l

/-- Test `line.lower().startswith('answer:')`. -/
def startsWithAnswerColon (l : Line) : Bool :=
  (toL "answer:").isPrefixOf (l.map toLowerCh)

/-! ## Block segmentation (`split_into_blocks`, `has_answer_declaration`) -/

/-- Python `has_answer_declaration(block)`: some line of the block, after trimming and
lower-casing, starts with `answer:`. -/
def has_answer_declaration (block : List Line) : Bool :=
  block.any (fun l => startsWithAnswerColon (stripL l))

/-- One iteration of the loop body of `split_into_blocks`: the state is the pair
(flushed blocks, current block). -/
def segStep (st : List (List Line) × List Line) (line : Line) :
    List (List Line) × List Line :=
  if (stripL line).isEmpty then
    if !st.2.isEmpty && has_answer_declaration st.2 then (st.1 ++ [st.2], [])
    else (st.1, st.2)
  else
    if !st.2.isEmpty && !inABCDabc ((stripL line).headD ' ') &&
        !startsWithAnswerColon (stripL line) && has_answer_declaration st.2 then
      (st.1 ++ [st.2], [line])
    else (st.1, st.2 ++ [line])

/-- Python `split_into_blocks(lines)`: fold the loop body over the lines and append the
trailing non-empty block. -/
def split_into_blocks (lines : List Line) : List (List Line) :=
  if ((lines.foldl segStep ([], [])).2).isEmpty then (lines.foldl segStep ([], [])).1
  else (lines.foldl segStep ([], [])).1 ++ [(lines.foldl segStep ([], [])).2]

/-! ## Block parsing (`parse_question_block`) -/

/-- The record returned by `parse_question_block` on success: the Python list
`[question_text, "multiple choice", A, B, C, D, correct_index]` as a structure. -/
structure QuestionRecord where
  questionText : Line
  questionType : Line
  optionA : Line
  optionB : Line
  optionC : Line
  optionD : Line
  correctIndex : Nat
  deriving Repr, DecidableEq

/-- The distinct `return None` paths of `parse_question_block`, one constructor per
diagnostic. -/
inductive ParseFailure where
  | emptyBlock
  | emptyQuestion
  | answerSetMismatch (missing extra : List Char)
  | missingDeclaration
  | invalidDeclaredLetter (c : Char)
  deriving Repr, DecidableEq

/-- Outcome of `parse_question_block`: a record or a `None` with its diagnostic. -/
inductive ParseResult where
  | ok (r : QuestionRecord)
  | fail (f : ParseFailure)
  deriving Repr, DecidableEq

/-- The question-collection loop: accumulate stripped non-empty lines until an
answer line, a declaration line, or an empty line after some question content;
returns the collected question lines and the unconsumed remainder of the block. -/
def collectQuestionLines : List Line → List Line → List Line × List Line
  | [], acc => (acc, [])
  | l :: rest, acc =>
    let s := stripL l
    if (matchAnswerLine s).isSome || (matchAnswerDecl s).isSome then (acc, l :: rest)
    else if s.isEmpty && !acc.isEmpty then (acc, l :: rest)
    else if !s.isEmpty then collectQuestionLines rest (acc ++ [s])
    else collectQuestionLines rest acc

/-- The letters-to-text dictionary built by the answer loop, in insertion order. -/
abbrev AnswerDict := List (Char × Line)

/-- Python dict assignment `answers[k] = v`: replace in place or append. -/
def dictInsert (k : Char) (v : Line) : AnswerDict → AnswerDict
  | [] => [(k, v)]
  | (k', v') :: rest => if k' == k then (k, v) :: rest else (k', v') :: dictInsert k v rest

/-- Python dict lookup `answers[k]` (letters are always present when used). -/
def dictGet (k : Char) : AnswerDict → Line
  | [] => []
  | (k', v) :: rest => if k' == k then v else dictGet k rest

/-- Statement `if current_answer_letter and current_answer_text: answers[letter] = text.strip()`. -/
def saveAnswer (cur : Option Char) (txt : Line) (d : AnswerDict) : AnswerDict :=
  match cur with
  | some c => if txt.isEmpty then d else dictInsert c (stripL txt) d
  | none => d

/-- The answer-extraction loop: skip blank lines; an answer-pattern line saves the
previous answer and starts a new one (letter upper-cased, text stripped); a
non-empty line whose first character is outside `ABCDabc` and that does not start
with `answer:` continues the current answer; anything else stops the loop. The
pending answer is saved when the loop ends. Returns the dictionary and the
unconsumed remainder. -/
def extractAnswers : List Line → Option Char → Line → AnswerDict → AnswerDict × List Line
  | [], cur, txt, d => (saveAnswer cur txt d, [])
  | l :: rest, cur, txt, d =>
    let s := stripL l
    if s.isEmpty then extractAnswers rest cur txt d
    else
      match matchAnswerLine s with
      | some (c, t) => extractAnswers rest (some (toUpperCh c)) (stripL t) (saveAnswer cur txt d)
      | none =>
        if cur.isSome && !inABCDabc (s.headD ' ') && !startsWithAnswerColon s then
          extractAnswers rest cur (txt ++ ' ' :: s) d
        else (saveAnswer cur txt d, l :: rest)

/-- The declaration scan `for j in range(i, len(block))` over the raw remaining
lines, returning the first declared letter, upper-cased. -/
def findDecl : List Line → Option Char
  | [] => none
  | l :: rest =>
    match matchAnswerDecl l with
    | some c => some (toUpperCh c)
    | none => findDecl rest

/-- Python `' '.join(lines)`. -/
def joinSpace : List Line → Line
  | [] => []
  | [l] => l
  | l :: rest => l ++ ' ' :: joinSpace rest

/-- The literal `"multiple choice"`. -/
def mcLit : Line := toL "multiple choice"

/-- The four expected letters, the set literal `{'A','B','C','D'}`. -/
def letterABCD : List Char := ['A', 'B', 'C', 'D']

/-- Question phase of `parse_question_block`: collect the question lines. -/
def qPhase (block : List Line) : List Line × List Line := collectQuestionLines block []

/-- Answer phase of `parse_question_block`: run the answer loop on the remainder. -/
def aPhase (block : List Line) : AnswerDict × List Line :=
  extractAnswers (qPhase block).2 none [] []

/-- The answers dictionary collected for a block. -/
def collectedAnswers (block : List Line) : AnswerDict := (aPhase block).1

/-- Keys `answers.keys()` in insertion order. -/
def answerKeys (block : List Line) : List Char := (collectedAnswers block).map Prod.fst

/-- Difference `set('ABCD') - set(answers.keys())`, listed in sorted (A..D) order. -/
def missingLetters (block : List Line) : List Char :=
  letterABCD.filter (fun ch => !((answerKeys block).contains ch))

/-- Difference `set(answers.keys()) - set('ABCD')` (always empty: only matched letters enter). -/
def extraLetters (block : List Line) : List Char :=
  (answerKeys block).filter (fun ch => !(letterABCD.contains ch))

/-- The declared correct letter found after the answers, if any. -/
def declaredLetter (block : List Line) : Option Char := findDecl (aPhase block).2

/-- Python `parse_question_block(block)`: the full per-block parse, with each `return None`
path mapped to its `ParseFailure` constructor. -/
def parse_question_block (block : List Line) : ParseResult :=
  if block.isEmpty then .fail .emptyBlock
  else if (qPhase block).1.isEmpty then .fail .emptyQuestion
  else if !(missingLetters block).isEmpty || !(extraLetters block).isEmpty then
    .fail (.answerSetMismatch (missingLetters block) (extraLetters block))
  else
    match declaredLetter block with
    | none => .fail .missingDeclaration
    | some cL =>
      if !(letterABCD.contains cL) then .fail (.invalidDeclaredLetter cL)
      else .ok {
        questionText := stripL (stripQNum (joinSpace (qPhase block).1))
        questionType := mcLit
        optionA := dictGet 'A' (collectedAnswers block)
        optionB := dictGet 'B' (collectedAnswers block)
        optionC := dictGet 'C' (collectedAnswers block)
        optionD := dictGet 'D' (collectedAnswers block)
        correctIndex := cL.toNat - 'A'.toNat + 1 }

/-! ## Helper lemmas about stripping and the matchers -/

/-- A line whose leading and trailing whitespace is already removed. -/
def Trimmed (l : Line) : Prop := lstripL l = l ∧ rstripL l = l

instance (l : Line) : Decidable (Trimmed l) := by unfold Trimmed; infer_instance

/-! ## Rendering of well-formed blocks -/

/-- The letter `A` in the requested case. -/
def chA (up : Bool) : Char := if up then 'A' else 'a'

/-- The letter `B` in the requested case. -/
def chB (up : Bool) : Char := if up then 'B' else 'b'

/-- The letter `C` in the requested case. -/
def chC (up : Bool) : Char := if up then 'C' else 'c'

/-- The letter `D` in the requested case. -/
def chD (up : Bool) : Char := if up then 'D' else 'd'

/-- Marker punctuation: `)` or `.`. -/
def pch (paren : Bool) : Char := if paren then ')' else '.'

/-- An answer line `X. text` / `x) text`. -/
def ansLine (L P : Char) (t : Line) : Line := L :: P :: ' ' :: t

/-- The upper-case letter at 0-based ordinal `k` of `ABCD`. -/
def abcdUpper (k : Fin 4) : Char :=
  match k with
  | ⟨0, _⟩ => 'A'
  | ⟨1, _⟩ => 'B'
  | ⟨2, _⟩ => 'C'
  | ⟨3, _⟩ => 'D'
  | ⟨n + 4, h⟩ => absurd h (by omega)

/-- The letter at ordinal `k` of `ABCD`, in the requested case. -/
def abcdChar (k : Fin 4) (up : Bool) : Char :=
  match k with
  | ⟨0, _⟩ => chA up
  | ⟨1, _⟩ => chB up
  | ⟨2, _⟩ => chC up
  | ⟨3, _⟩ => chD up
  | ⟨n + 4, h⟩ => absurd h (by omega)

/-- The fixed part of a rendered declaration line. -/
def declPre : Line := toL "ANSWER: "

/-- A declaration line `ANSWER: X`. -/
def declLine (c : Char) : Line := declPre ++ [c]

/-- A well-formed block: question lines, four answer lines for letters A–D in the
requested cases and punctuations, and a declaration for the letter at ordinal `k`. -/
def wfBlock (qls : List Line) (u1 u2 u3 u4 p1 p2 p3 p4 : Bool)
    (ta tb tc td : Line) (k : Fin 4) (lc : Bool) : List Line :=
  qls ++ [ansLine (chA u1) (pch p1) ta, ansLine (chB u2) (pch p2) tb,
          ansLine (chC u3) (pch p3) tc, ansLine (chD u4) (pch p4) td,
          declLine (abcdChar k lc)]

/-! ## Claim C2 -/

/-- A fixed tail of four valid answers and a declaration, used to isolate the
question-normalization behavior. -/
def c2Tail : List Line :=
  [toL "A. red", toL "B. green", toL "C. blue", toL "D. teal", toL "ANSWER: A"]

/-! ## Claim C9: the exporters -/

/-- A spreadsheet cell value: a string or a number. -/
inductive Cell where
  | str (s : Line)
  | num (n : Nat)
  deriving Repr, DecidableEq

/-- A record as the Python list the parser actually returns:
`[question_text, "multiple choice", A, B, C, D, correct_index]`. -/
abbrev RecRow := List Cell

/-- Conversion of a structured record to its 7-element list form. -/
def recToRow (r : QuestionRecord) : RecRow :=
  [.str r.questionText, .str r.questionType, .str r.optionA, .str r.optionB,
   .str r.optionC, .str r.optionD, .num r.correctIndex]

/-- Function `generate_quizizz_excel`'s data preparation `for row in data: row.append(60)`:
each record list is mutated in place by appending the Time cell. The returned value
is the post-call state of `data`, which is also the row list handed to the
DataFrame. -/
def quizizz_excel_rows (data : List RecRow) : List RecRow :=
  data.map (fun row => row ++ [Cell.num 60])

/-- The numeric value of a cell (`question[6]`). -/
def cellNat : Cell → Nat
  | .num n => n
  | .str _ => 0

/-- One processed row of `generate_gform_excel`: the eight columns built from
`question[0..6]`, with `Answer` resolved to the text of the correct choice and
`Points` fixed to 1. -/
def gform_processed_row (q : RecRow) : RecRow :=
  [q.getD 0 (.str []), q.getD 1 (.str []), q.getD 2 (.str []), q.getD 3 (.str []),
   q.getD 4 (.str []), q.getD 5 (.str []),
   [q.getD 2 (.str []), q.getD 3 (.str []), q.getD 4 (.str []),
    q.getD 5 (.str [])].getD (cellNat (q.getD 6 (.num 0)) - 1) (.str []),
   .num 1]

/-- Function `generate_gform_excel`'s data processing: fresh processed rows are built and
the input records are left untouched; the pair holds (processed rows, post-call
state of `data`). -/
def gform_excel_rows (data : List RecRow) : List RecRow × List RecRow :=
  (data.map gform_processed_row, data)

/-- A concrete record row. -/
def row9 : RecRow :=
  recToRow { questionText := toL "Q?", questionType := mcLit, optionA := toL "one",
             optionB := toL "two", optionC := toL "three", optionD := toL "four",
             correctIndex := 1 }

example : matchAnswerLine (toL "A. Domain Name System") = some ('A', toL "Domain Name System") := by decide

example : matchAnswerLine (toL "  b)  x") = some ('b', toL "x") := by decide

example : matchAnswerLine (toL "E. five") = none := by decide

example : matchAnswerLine (toL "ANSWER: A") = none := by decide

example : matchAnswerDecl (toL "ANSWER: C") = some ('C') := by decide

example : matchAnswerDecl (toL "  answer : d rest") = some ('d') := by decide

example : matchAnswerDecl (toL "ANSWER: E") = none := by decide

example : stripQNum (toL "12. What is DNS?") = toL "What is DNS?" := by decide

example : stripQNum (toL "3) What?") = toL "What?" := by decide

example : stripQNum (toL "What is DNS? [easy]") = toL "What is DNS? [easy]" := by decide

example : stripQNum (toL "1.") = ([] : Line) := by decide

example : startsWithAnswerColon (toL "Answer:  B") = true := by decide

example : stripL (toL "  hi there  ") = toL "hi there" := by decide

example :
    parse_question_block
      [toL "What is DNS?", toL "A. Domain Name System.", toL "B. DHCP",
       toL "C. Data Naming Services", toL "D. Digital Network Security", toL "ANSWER: A"]
    = .ok { questionText := toL "What is DNS?", questionType := mcLit,
            optionA := toL "Domain Name System.", optionB := toL "DHCP",
            optionC := toL "Data Naming Services", optionD := toL "Digital Network Security",
            correctIndex := 1 } := by decide

example :
    parse_question_block
      [toL "7) Why use a static IP?", toL "a) So clients can find it.", toL "B. Random.",
       toL "c) No reason.", toL "D) Cost.", toL "ANSWER: c"]
    = .ok { questionText := toL "Why use a static IP?", questionType := mcLit,
            optionA := toL "So clients can find it.", optionB := toL "Random.",
            optionC := toL "No reason.", optionD := toL "Cost.",
            correctIndex := 3 } := by decide

example :
    parse_question_block [toL "Q?", toL "A. x", toL "B. y", toL "C. z", toL "ANSWER: A"]
    = .fail (.answerSetMismatch ['D'] []) := by decide

example :
    split_into_blocks
      [toL "Q1?", toL "", toL "A. x", toL "B. y", toL "C. z", toL "D. w", toL "ANSWER: A",
       toL "", toL "Q2?"]
    = [[toL "Q1?", toL "A. x", toL "B. y", toL "C. z", toL "D. w", toL "ANSWER: A"],
       [toL "Q2?"]] := by decide

theorem dropWhile_len_le (p : Char → Bool) (l : List Char) :
    (l.dropWhile p).length ≤ l.length := by
  induction l with
  | nil => simp
  | cons a as ih =>
    rw [List.dropWhile_cons]
    split
    · exact Nat.le_trans ih (Nat.le_succ _)
    · simp

theorem head_false_of_dropWhile_self (p : Char → Bool) (c : Char) (l : List Char)
    (h : List.dropWhile p (c :: l) = c :: l) : p c = false := by
  by_contra hne
  have hp : p c = true := by revert hne; cases p c <;> simp
  rw [List.dropWhile_cons, if_pos hp] at h
  have hlen := congrArg List.length h
  have := dropWhile_len_le p l
  simp at hlen
  omega

theorem lstrip_cons_of_nonspace (c : Char) (l : Line) (hc : isPySpace c = false) :
    lstripL (c :: l) = c :: l := by
  unfold lstripL
  rw [List.dropWhile_cons, if_neg (by simp [hc])]

theorem rstrip_append_of_trimmed (u t : Line) (h : rstripL t = t) (ht : t ≠ []) :
    rstripL (u ++ t) = u ++ t := by
  have hrev : t.reverse.dropWhile isPySpace = t.reverse := by
    have := congrArg List.reverse h
    simpa [rstripL] using this
  cases hc : t.reverse with
  | nil => exact absurd (by simpa using congrArg List.reverse hc) ht
  | cons c r =>
    rw [hc] at hrev
    have hcf : isPySpace c = false := head_false_of_dropWhile_self _ _ _ hrev
    have htt : t = r.reverse ++ [c] := by
      have := congrArg List.reverse hc
      simpa using this
    rw [htt]
    unfold rstripL
    simp only [List.reverse_append, List.reverse_cons, List.reverse_nil, List.nil_append,
      List.reverse_reverse, List.cons_append]
    rw [List.dropWhile_cons, if_neg (by simp [hcf])]
    simp

theorem strip_of_trimmed (t : Line) (h : Trimmed t) : stripL t = t := by
  unfold stripL
  rw [h.2, h.1]

theorem strip_marker_line (x y : Char) (t : Line) (hx : isPySpace x = false)
    (h2 : rstripL t = t) (ht : t ≠ []) :
    stripL (x :: y :: ' ' :: t) = x :: y :: ' ' :: t := by
  unfold stripL
  have hr : rstripL ([x, y, ' '] ++ t) = [x, y, ' '] ++ t :=
    rstrip_append_of_trimmed [x, y, ' '] t h2 ht
  simp only [List.cons_append, List.nil_append] at hr
  rw [hr]
  exact lstrip_cons_of_nonspace x _ hx

theorem matchAnswerLine_marker (L P : Char) (t : Line) (hLs : isPySpace L = false)
    (hL : isAnswerLetter L = true) (hP : P = '.' ∨ P = ')') (hlt : lstripL t = t) :
    matchAnswerLine (L :: P :: ' ' :: t) = some (L, t) := by
  unfold matchAnswerLine
  rw [lstrip_cons_of_nonspace L _ hLs]
  have hcond : (isAnswerLetter L && (P == '.' || P == ')')) = true := by
    rcases hP with rfl | rfl <;> simp [hL]
  simp only [hcond, if_pos]
  have : (' ' :: t).dropWhile isPySpace = t := by
    rw [List.dropWhile_cons, if_pos (by decide)]
    exact hlt
  rw [this]

/-! ## Step lemmas for the two loops of `parse_question_block` -/
theorem collect_stop_answer (l : Line) (rest acc : List Line)
    (h : (matchAnswerLine (stripL l)).isSome = true) :
    collectQuestionLines (l :: rest) acc = (acc, l :: rest) := by
  conv_lhs => rw [collectQuestionLines]
  simp [h]

theorem collect_question_line (l : Line) (rest acc : List Line)
    (h1 : stripL l ≠ []) (h2 : matchAnswerLine (stripL l) = none)
    (h3 : matchAnswerDecl (stripL l) = none) :
    collectQuestionLines (l :: rest) acc = collectQuestionLines rest (acc ++ [stripL l]) := by
  conv_lhs => rw [collectQuestionLines]
  simp [h1, h2, h3]

theorem collect_app (qls : List Line) (rest acc : List Line)
    (h : ∀ l ∈ qls, stripL l ≠ [] ∧ matchAnswerLine (stripL l) = none ∧
      matchAnswerDecl (stripL l) = none) :
    collectQuestionLines (qls ++ rest) acc
      = collectQuestionLines rest (acc ++ qls.map stripL) := by
  induction qls generalizing acc with
  | nil => simp
  | cons l ls ih =>
    have hl := h l (by simp)
    rw [List.cons_append, collect_question_line l _ acc hl.1 hl.2.1 hl.2.2,
      ih (acc ++ [stripL l]) (fun x hx => h x (List.mem_cons_of_mem l hx))]
    simp

theorem extract_answer_step (L P : Char) (t : Line) (rest : List Line)
    (cur : Option Char) (txt : Line) (d : AnswerDict)
    (hLs : isPySpace L = false) (hL : isAnswerLetter L = true) (hP : P = '.' ∨ P = ')')
    (ht : Trimmed t) (htne : t ≠ []) :
    extractAnswers ((L :: P :: ' ' :: t) :: rest) cur txt d
      = extractAnswers rest (some (toUpperCh L)) t (saveAnswer cur txt d) := by
  have hs : stripL (L :: P :: ' ' :: t) = L :: P :: ' ' :: t :=
    strip_marker_line L P t hLs ht.2 htne
  have hm : matchAnswerLine (L :: P :: ' ' :: t) = some (L, t) :=
    matchAnswerLine_marker L P t hLs hL hP ht.1
  conv_lhs => rw [extractAnswers]
  simp [hs, hm, strip_of_trimmed t ht]

theorem extract_continuation_step (l : Line) (rest : List Line)
    (cur : Option Char) (txt : Line) (d : AnswerDict)
    (hcur : cur.isSome = true)
    (h1 : stripL l ≠ []) (h2 : matchAnswerLine (stripL l) = none)
    (h3 : inABCDabc ((stripL l).headD ' ') = false)
    (h4 : startsWithAnswerColon (stripL l) = false) :
    extractAnswers (l :: rest) cur txt d
      = extractAnswers rest cur (txt ++ ' ' :: stripL l) d := by
  rw [List.headD_eq_head?_getD] at h3
  conv_lhs => rw [extractAnswers]
  simp [h1, h2, hcur, h3, h4]

theorem extract_break (l : Line) (rest : List Line)
    (cur : Option Char) (txt : Line) (d : AnswerDict)
    (h1 : stripL l ≠ []) (h2 : matchAnswerLine (stripL l) = none)
    (h3 : (cur.isSome && !inABCDabc ((stripL l).headD ' ') &&
      !startsWithAnswerColon (stripL l)) = false) :
    extractAnswers (l :: rest) cur txt d = (saveAnswer cur txt d, l :: rest) := by
  rw [List.headD_eq_head?_getD] at h3
  conv_lhs => rw [extractAnswers]
  simp only [List.isEmpty_eq_false.mpr h1, h2, Bool.and_eq_false_imp] at *
  simp [h1, h2]
  intro hcur hh
  have := h3
  simp [hcur, hh] at this
  simp [this]

theorem not_answerLetter_of_space (x : Char) (h : isPySpace x = true) :
    isAnswerLetter x = false := by
  unfold isPySpace at h
  simp only [Bool.or_eq_true, beq_iff_eq] at h
  rcases h with ((((h | h) | h) | h) | h) | h <;> subst h <;> decide

theorem matchAnswerDecl_declLine (x : Char) :
    matchAnswerDecl (declLine x) = if isAnswerLetter x then some x else none := by
  show (match List.dropWhile isPySpace [x] with
        | c :: _ => if isAnswerLetter c then some c else none
        | [] => none) = if isAnswerLetter x then some x else none
  cases hx : isPySpace x with
  | true =>
    rw [List.dropWhile_cons, if_pos hx]
    simp [not_answerLetter_of_space x hx]
  | false =>
    rw [List.dropWhile_cons, if_neg (by simp [hx])]

theorem matchAnswerLine_declLine (x : Char) : matchAnswerLine (declLine x) = none := rfl

theorem strip_declLine (x : Char) (hx : isPySpace x = false) :
    stripL (declLine x) = declLine x := by
  have h1 : rstripL [x] = [x] := by
    unfold rstripL
    simp [List.dropWhile_cons, hx]
  have h2 : rstripL (declLine x) = declLine x :=
    rstrip_append_of_trimmed declPre [x] h1 (by simp)
  unfold stripL
  rw [h2]
  exact lstrip_cons_of_nonspace 'A' _ (by decide)

theorem saveAnswer_none (txt : Line) (d : AnswerDict) : saveAnswer none txt d = d := rfl

theorem saveAnswer_some (c : Char) (t : Line) (d : AnswerDict)
    (ht : Trimmed t) (hne : t ≠ []) : saveAnswer (some c) t d = dictInsert c t d := by
  unfold saveAnswer
  simp [List.isEmpty_eq_false.mpr hne, strip_of_trimmed t ht]

theorem extract_decl_break (x : Char) (rest : List Line)
    (cur : Option Char) (txt : Line) (d : AnswerDict) (hx : isPySpace x = false) :
    extractAnswers (declLine x :: rest) cur txt d = (saveAnswer cur txt d, declLine x :: rest) := by
  have hs : stripL (declLine x) = declLine x := strip_declLine x hx
  apply extract_break
  · rw [hs]; simp [declLine, declPre]
  · rw [hs]; exact matchAnswerLine_declLine x
  · rw [hs]
    have hhead : inABCDabc (((declLine x).head?).getD ' ') = true := rfl
    simp [hhead]

theorem strip_ansLine (L P : Char) (t : Line) (hL : isPySpace L = false)
    (h2 : rstripL t = t) (hne : t ≠ []) : stripL (ansLine L P t) = ansLine L P t :=
  strip_marker_line L P t hL h2 hne

theorem extract_ansLine_step (L P : Char) (t : Line) (rest : List Line)
    (cur : Option Char) (txt : Line) (d : AnswerDict)
    (hLs : isPySpace L = false) (hL : isAnswerLetter L = true) (hP : P = '.' ∨ P = ')')
    (ht : Trimmed t) (htne : t ≠ []) :
    extractAnswers (ansLine L P t :: rest) cur txt d
      = extractAnswers rest (some (toUpperCh L)) t (saveAnswer cur txt d) :=
  extract_answer_step L P t rest cur txt d hLs hL hP ht htne

/-! ## Claim C1 -/

/-- C1: for every well-formed block — one or more question-text lines, four answer
lines with markers A–D in any letter case with `.` or `)` punctuation, and an
answer-declaration line — `parse_question_block` returns a record whose
`correctIndex` is the 1-based ordinal of the declared letter in `ABCD` and whose
`questionType` is the literal `"multiple choice"`. -/
theorem c1_wellformed_block_correct_index
    (qls : List Line) (ta tb tc td : Line)
    (u1 u2 u3 u4 p1 p2 p3 p4 : Bool) (k : Fin 4) (lc : Bool)
    (hq : qls ≠ [])
    (hql : ∀ l ∈ qls, stripL l ≠ [] ∧ matchAnswerLine (stripL l) = none ∧
      matchAnswerDecl (stripL l) = none)
    (hta : Trimmed ta) (htane : ta ≠ []) (htb : Trimmed tb) (htbne : tb ≠ [])
    (htc : Trimmed tc) (htcne : tc ≠ []) (htd : Trimmed td) (htdne : td ≠ []) :
    parse_question_block (wfBlock qls u1 u2 u3 u4 p1 p2 p3 p4 ta tb tc td k lc)
      = .ok { questionText := stripL (stripQNum (joinSpace (qls.map stripL))),
              questionType := mcLit,
              optionA := ta, optionB := tb, optionC := tc, optionD := td,
              correctIndex := k.val + 1 } := by
  obtain ⟨q0, qrest, rfl⟩ : ∃ q0 qrest, qls = q0 :: qrest := by
    cases qls with
    | nil => exact absurd rfl hq
    | cons a b => exact ⟨a, b, rfl⟩
  have hA1 : isPySpace (chA u1) = false := by cases u1 <;> decide
  have hA2 : isAnswerLetter (chA u1) = true := by cases u1 <;> decide
  have hA3 : toUpperCh (chA u1) = 'A' := by cases u1 <;> decide
  have hB1 : isPySpace (chB u2) = false := by cases u2 <;> decide
  have hB2 : isAnswerLetter (chB u2) = true := by cases u2 <;> decide
  have hB3 : toUpperCh (chB u2) = 'B' := by cases u2 <;> decide
  have hC1 : isPySpace (chC u3) = false := by cases u3 <;> decide
  have hC2 : isAnswerLetter (chC u3) = true := by cases u3 <;> decide
  have hC3 : toUpperCh (chC u3) = 'C' := by cases u3 <;> decide
  have hD1 : isPySpace (chD u4) = false := by cases u4 <;> decide
  have hD2 : isAnswerLetter (chD u4) = true := by cases u4 <;> decide
  have hD3 : toUpperCh (chD u4) = 'D' := by cases u4 <;> decide
  have hq1 : pch p1 = '.' ∨ pch p1 = ')' := by cases p1 <;> simp [pch]
  have hq2 : pch p2 = '.' ∨ pch p2 = ')' := by cases p2 <;> simp [pch]
  have hq3 : pch p3 = '.' ∨ pch p3 = ')' := by cases p3 <;> simp [pch]
  have hq4 : pch p4 = '.' ∨ pch p4 = ')' := by cases p4 <;> simp [pch]
  have hx1 : isPySpace (abcdChar k lc) = false := by fin_cases k <;> cases lc <;> decide
  have hx2 : isAnswerLetter (abcdChar k lc) = true := by fin_cases k <;> cases lc <;> decide
  have hx3 : toUpperCh (abcdChar k lc) = abcdUpper k := by fin_cases k <;> cases lc <;> decide
  set blk := wfBlock (q0 :: qrest) u1 u2 u3 u4 p1 p2 p3 p4 ta tb tc td k lc with hblk
  have hQP : qPhase blk
      = ((q0 :: qrest).map stripL,
         [ansLine (chA u1) (pch p1) ta, ansLine (chB u2) (pch p2) tb,
          ansLine (chC u3) (pch p3) tc, ansLine (chD u4) (pch p4) td,
          declLine (abcdChar k lc)]) := by
    unfold qPhase
    rw [hblk]
    unfold wfBlock
    rw [collect_app _ _ [] hql]
    rw [collect_stop_answer]
    · simp
    · rw [strip_ansLine _ _ _ hA1 hta.2 htane]
      unfold ansLine
      rw [matchAnswerLine_marker _ _ _ hA1 hA2 hq1 hta.1]
      rfl
  have hAP : aPhase blk
      = ([('A', ta), ('B', tb), ('C', tc), ('D', td)], [declLine (abcdChar k lc)]) := by
    unfold aPhase
    rw [hQP]
    show extractAnswers
      [ansLine (chA u1) (pch p1) ta, ansLine (chB u2) (pch p2) tb,
       ansLine (chC u3) (pch p3) tc, ansLine (chD u4) (pch p4) td,
       declLine (abcdChar k lc)] none [] [] = _
    rw [extract_ansLine_step _ _ _ _ _ _ _ hA1 hA2 hq1 hta htane, hA3, saveAnswer_none]
    rw [extract_ansLine_step _ _ _ _ _ _ _ hB1 hB2 hq2 htb htbne, hB3,
      saveAnswer_some _ _ _ hta htane]
    rw [show dictInsert 'A' ta [] = [('A', ta)] from rfl]
    rw [extract_ansLine_step _ _ _ _ _ _ _ hC1 hC2 hq3 htc htcne, hC3,
      saveAnswer_some _ _ _ htb htbne]
    rw [show dictInsert 'B' tb [('A', ta)] = [('A', ta), ('B', tb)] from rfl]
    rw [extract_ansLine_step _ _ _ _ _ _ _ hD1 hD2 hq4 htd htdne, hD3,
      saveAnswer_some _ _ _ htc htcne]
    rw [show dictInsert 'C' tc [('A', ta), ('B', tb)] = [('A', ta), ('B', tb), ('C', tc)]
      from rfl]
    rw [extract_decl_break _ _ _ _ _ hx1, saveAnswer_some _ _ _ htd htdne]
    rw [show dictInsert 'D' td [('A', ta), ('B', tb), ('C', tc)]
      = [('A', ta), ('B', tb), ('C', tc), ('D', td)] from rfl]
  have hne : blk.isEmpty = false := rfl
  have hq1e : (qPhase blk).1.isEmpty = false := by rw [hQP]; rfl
  have hca : collectedAnswers blk = [('A', ta), ('B', tb), ('C', tc), ('D', td)] := by
    unfold collectedAnswers
    rw [hAP]
  have hkeys : answerKeys blk = letterABCD := by
    unfold answerKeys
    rw [hca]
    rfl
  have hmiss : missingLetters blk = [] := by
    unfold missingLetters
    rw [hkeys]
    rfl
  have hex : extraLetters blk = [] := by
    unfold extraLetters
    rw [hkeys]
    rfl
  have hdecl : declaredLetter blk = some (abcdUpper k) := by
    unfold declaredLetter
    rw [hAP]
    show findDecl [declLine (abcdChar k lc)] = _
    conv_lhs => rw [findDecl]
    rw [matchAnswerDecl_declLine, hx2]
    simp [hx3]
  have hcont : letterABCD.contains (abcdUpper k) = true := by fin_cases k <;> decide
  have hidx : (abcdUpper k).toNat - 'A'.toNat + 1 = k.val + 1 := by fin_cases k <;> decide
  unfold parse_question_block
  rw [hne, hq1e, hmiss, hex, hdecl, hQP]
  simp only [List.isEmpty_nil, Bool.not_true, Bool.or_self, Bool.false_eq_true, if_false,
    hcont, hca, hidx]
  rfl

/-! ## Claim C6 -/

/-- C6: an empty line flushes the current block if and only if the block is
non-empty and already contains an `ANSWER:` declaration line; otherwise the empty
line is a no-op for the segmentation state. -/
theorem c6_blank_line_flush_iff (blocks : List (List Line)) (cur : List Line) (line : Line)
    (h : stripL line = []) :
    (segStep (blocks, cur) line = (blocks ++ [cur], [])
        ↔ (cur ≠ [] ∧ has_answer_declaration cur = true)) ∧
    (¬(cur ≠ [] ∧ has_answer_declaration cur = true) →
        segStep (blocks, cur) line = (blocks, cur)) := by
  unfold segStep
  rw [h]
  by_cases hc : cur = []
  · subst hc
    simp
  · by_cases hd : has_answer_declaration cur
    · simp [List.isEmpty_eq_false.mpr hc, hd, hc]
    · simp [List.isEmpty_eq_false.mpr hc, hd, hc]

/-- Witness for C6: a blank line between a declaration-less question line and its
answers leaves the segmentation state unchanged (no premature flush). -/
theorem c6_blank_line_flush_iff_witness :
    segStep ([], [toL "What is DNS?"]) [] = ([], [toL "What is DNS?"]) :=
  (c6_blank_line_flush_iff [] [toL "What is DNS?"] [] (by decide)).2 (by decide)

/-! ## Claim C10 -/
theorem segStep_flatten (blocks : List (List Line)) (cur : List Line) (l : Line) :
    (segStep (blocks, cur) l).1.flatten ++ (segStep (blocks, cur) l).2
      = blocks.flatten ++ cur ++ (if (stripL l).isEmpty then [] else [l]) := by
  unfold segStep
  split_ifs with h1 h2 h3 <;> simp [h1, List.flatten_append]

theorem segStep_nonblank (blocks : List (List Line)) (cur : List Line) (l : Line)
    (hb : ∀ b ∈ blocks, ∀ x ∈ b, (stripL x).isEmpty = false)
    (hcur : ∀ x ∈ cur, (stripL x).isEmpty = false) :
    (∀ b ∈ (segStep (blocks, cur) l).1, ∀ x ∈ b, (stripL x).isEmpty = false) ∧
    (∀ x ∈ (segStep (blocks, cur) l).2, (stripL x).isEmpty = false) := by
  unfold segStep
  split_ifs with h1 h2 h3
  · constructor
    · intro b hbmem
      rcases List.mem_append.mp hbmem with hmem | hmem
      · exact hb b hmem
      · have : b = cur := List.mem_singleton.mp hmem
        subst this
        exact hcur
    · simp
  · exact ⟨hb, hcur⟩
  · constructor
    · intro b hbmem
      rcases List.mem_append.mp hbmem with hmem | hmem
      · exact hb b hmem
      · have : b = cur := List.mem_singleton.mp hmem
        subst this
        exact hcur
    · intro x hx
      have : x = l := List.mem_singleton.mp hx
      subst this
      exact Bool.eq_false_iff.mpr h1
  · refine ⟨hb, ?_⟩
    intro x hx
    rcases List.mem_append.mp hx with hmem | hmem
    · exact hcur x hmem
    · have : x = l := List.mem_singleton.mp hmem
      subst this
      exact Bool.eq_false_iff.mpr h1

theorem seg_fold_flatten (lines : List Line) (blocks : List (List Line)) (cur : List Line) :
    (lines.foldl segStep (blocks, cur)).1.flatten ++ (lines.foldl segStep (blocks, cur)).2
      = blocks.flatten ++ cur ++ lines.filter (fun l => !(stripL l).isEmpty) := by
  induction lines generalizing blocks cur with
  | nil => simp
  | cons l ls ih =>
    rw [List.foldl_cons, List.filter_cons]
    rcases hstep : segStep (blocks, cur) l with ⟨blocks', cur'⟩
    have hfl := segStep_flatten blocks cur l
    rw [hstep] at hfl
    rw [ih blocks' cur', hfl]
    by_cases hs : (stripL l).isEmpty <;> simp [hs]

theorem seg_fold_nonblank (lines : List Line) (blocks : List (List Line)) (cur : List Line)
    (hb : ∀ b ∈ blocks, ∀ x ∈ b, (stripL x).isEmpty = false)
    (hcur : ∀ x ∈ cur, (stripL x).isEmpty = false) :
    (∀ b ∈ (lines.foldl segStep (blocks, cur)).1, ∀ x ∈ b, (stripL x).isEmpty = false) ∧
    (∀ x ∈ (lines.foldl segStep (blocks, cur)).2, (stripL x).isEmpty = false) := by
  induction lines generalizing blocks cur with
  | nil => exact ⟨hb, hcur⟩
  | cons l ls ih =>
    rw [List.foldl_cons]
    rcases hstep : segStep (blocks, cur) l with ⟨blocks', cur'⟩
    have hnb := segStep_nonblank blocks cur l hb hcur
    rw [hstep] at hnb
    exact ih blocks' cur' hnb.1 hnb.2

/-- C10: `split_into_blocks` partitions exactly the non-blank lines: the blocks
concatenated in order are precisely the lines that are non-empty after trimming, in
input order, and no block contains a blank line. -/
theorem c10_blocks_partition_nonblank (lines : List Line) :
    (split_into_blocks lines).flatten = lines.filter (fun l => !(stripL l).isEmpty) ∧
    ∀ b ∈ split_into_blocks lines, ∀ x ∈ b, (stripL x).isEmpty = false := by
  unfold split_into_blocks
  rcases hst : lines.foldl segStep ([], []) with ⟨bs, cur⟩
  have hfl := seg_fold_flatten lines [] []
  rw [hst] at hfl
  simp only [List.flatten_nil, List.nil_append] at hfl
  have hnb := seg_fold_nonblank lines [] [] (by simp) (by simp)
  rw [hst] at hnb
  cases hc : cur.isEmpty with
  | true =>
    have hce : cur = [] := List.isEmpty_iff.mp hc
    subst hce
    simp only [List.isEmpty_nil, if_true]
    refine ⟨by simpa using hfl, hnb.1⟩
  | false =>
    simp only [hc, Bool.false_eq_true, if_false]
    constructor
    · rw [List.flatten_append]
      simpa using hfl
    · intro b hbmem
      rcases List.mem_append.mp hbmem with hmem | hmem
      · exact hnb.1 b hmem
      · have : b = cur := List.mem_singleton.mp hmem
        subst this
        exact hnb.2

/-! ## Claim C7 -/

/-- C7: once question lines have been collected, a block parses successfully only
when the collected answer letters are exactly A–D, and any deviation fails with
`answerSetMismatch` carrying the missing and extra letters. -/
theorem c7_answer_set_completeness (block : List Line)
    (hq : (qPhase block).1 ≠ []) :
    (∀ r, parse_question_block block = .ok r →
        missingLetters block = [] ∧ extraLetters block = []) ∧
    ((missingLetters block ≠ [] ∨ extraLetters block ≠ []) →
      parse_question_block block
        = .fail (.answerSetMismatch (missingLetters block) (extraLetters block))) := by
  have hbne : block ≠ [] := by
    intro h
    apply hq
    rw [h]
    rfl
  have h1 : block.isEmpty = false := List.isEmpty_eq_false.mpr hbne
  have h2 : (qPhase block).1.isEmpty = false := List.isEmpty_eq_false.mpr hq
  by_cases hme : missingLetters block = [] ∧ extraLetters block = []
  · refine ⟨fun r _ => hme, ?_⟩
    rintro (hcontra | hcontra)
    · exact absurd hme.1 hcontra
    · exact absurd hme.2 hcontra
  · have hcond : (!(missingLetters block).isEmpty || !(extraLetters block).isEmpty) = true := by
      rcases not_and_or.mp hme with hne | hne <;>
        simp [List.isEmpty_eq_false.mpr hne]
    have hfail : parse_question_block block
        = .fail (.answerSetMismatch (missingLetters block) (extraLetters block)) := by
      unfold parse_question_block
      rw [h1, h2, hcond]
      simp
    refine ⟨?_, fun _ => hfail⟩
    intro r hr
    rw [hfail] at hr
    exact absurd hr (by simp)

/-- Witness for C7: a block with answers only for A, B, C fails reporting D missing. -/
theorem c7_answer_set_completeness_witness :
    parse_question_block [toL "Q?", toL "A. x", toL "B. y", toL "C. z", toL "ANSWER: A"]
      = .fail (.answerSetMismatch ['D'] []) :=
  ((c7_answer_set_completeness
      [toL "Q?", toL "A. x", toL "B. y", toL "C. z", toL "ANSWER: A"]
      (by decide)).2 (by decide)).trans (by decide)

/-! ## Claim C3 -/

/-- C3 counterexample: a block whose question text normalizes to the empty string
(the lone numbering token `1.`) is not rejected — a record with empty
`questionText` is emitted. -/
theorem c3_empty_after_normalization_counterexample :
    parse_question_block
      [toL "1.", toL "A. x", toL "B. y", toL "C. z", toL "D. w", toL "ANSWER: A"]
      = .ok { questionText := [], questionType := mcLit,
              optionA := toL "x", optionB := toL "y", optionC := toL "z",
              optionD := toL "w", correctIndex := 1 } := by decide

/-- C3 corrected: `parse_question_block` fails with the empty-question failure
exactly when the question phase collects zero lines; emptiness of the normalized
text is not checked. -/
theorem c3_empty_question_iff_no_lines (block : List Line) (h : block ≠ []) :
    parse_question_block block = .fail .emptyQuestion ↔ (qPhase block).1 = [] := by
  have h1 : block.isEmpty = false := List.isEmpty_eq_false.mpr h
  by_cases hq : (qPhase block).1 = []
  · have h2 : (qPhase block).1.isEmpty = true := by rw [hq]; rfl
    have : parse_question_block block = .fail .emptyQuestion := by
      unfold parse_question_block
      rw [h1, h2]
      simp
    simp [this, hq]
  · have h2 : (qPhase block).1.isEmpty = false := List.isEmpty_eq_false.mpr hq
    constructor
    · intro hp
      exfalso
      unfold parse_question_block at hp
      rw [h1, h2] at hp
      simp only [Bool.false_eq_true, if_false] at hp
      split at hp
      · exact absurd hp (by simp)
      · split at hp
        · exact absurd hp (by simp)
        · split at hp
          · exact absurd hp (by simp)
          · exact absurd hp (by simp)
    · intro hq'
      exact absurd hq' hq

/-- Witness for C3 (corrected): a block whose first line is already an answer line
collects no question lines and fails with the empty-question failure. -/
theorem c3_empty_question_iff_no_lines_witness :
    parse_question_block [toL "A. x"] = .fail .emptyQuestion :=
  (c3_empty_question_iff_no_lines [toL "A. x"] (by decide)).mpr (by decide)

/-- C2 counterexample: the bracketed annotation `[easy]` is NOT removed — the
emitted record keeps it, so the claimed questionText `What is DNS?` is wrong. -/
theorem c2_bracket_not_stripped_counterexample :
    parse_question_block (toL "What is DNS? [easy]" :: c2Tail)
      = .ok { questionText := toL "What is DNS? [easy]", questionType := mcLit,
              optionA := toL "red", optionB := toL "green", optionC := toL "blue",
              optionD := toL "teal", correctIndex := 1 } ∧
    toL "What is DNS? [easy]" ≠ toL "What is DNS?" := by
  refine ⟨by decide, by decide⟩

/-- C2 corrected: question normalization is numbering-prefix stripping plus
whitespace trimming only — for any single trimmed question line `t` the emitted
`questionText` is `stripL (stripQNum t)`; bracketed substrings are left in place. -/
theorem c2_normalization_is_qnum_strip_only (t : Line)
    (ht : Trimmed t) (hne : t ≠ [])
    (hm1 : matchAnswerLine t = none) (hm2 : matchAnswerDecl t = none) :
    parse_question_block (t :: c2Tail)
      = .ok { questionText := stripL (stripQNum t), questionType := mcLit,
              optionA := toL "red", optionB := toL "green", optionC := toL "blue",
              optionD := toL "teal", correctIndex := 1 } := by
  have hst : stripL t = t := strip_of_trimmed t ht
  have h1 : stripL t ≠ [] := by rw [hst]; exact hne
  have h2 : matchAnswerLine (stripL t) = none := by rw [hst]; exact hm1
  have h3 : matchAnswerDecl (stripL t) = none := by rw [hst]; exact hm2
  have hQP : qPhase (t :: c2Tail) = ([t], c2Tail) := by
    unfold qPhase
    rw [collect_question_line t _ [] h1 h2 h3, hst]
    rw [show ([] : List Line) ++ [t] = [t] from rfl]
    unfold c2Tail
    rw [collect_stop_answer _ _ _ (by decide)]
  have hAP : aPhase (t :: c2Tail)
      = ([('A', toL "red"), ('B', toL "green"), ('C', toL "blue"), ('D', toL "teal")],
         [toL "ANSWER: A"]) := by
    have hconc : extractAnswers c2Tail none [] []
        = ([('A', toL "red"), ('B', toL "green"), ('C', toL "blue"), ('D', toL "teal")],
           [toL "ANSWER: A"]) := by decide
    unfold aPhase
    rw [hQP]
    exact hconc
  have hbe : (t :: c2Tail).isEmpty = false := rfl
  have hqe : (qPhase (t :: c2Tail)).1.isEmpty = false := by rw [hQP]; rfl
  have hca : collectedAnswers (t :: c2Tail)
      = [('A', toL "red"), ('B', toL "green"), ('C', toL "blue"), ('D', toL "teal")] := by
    unfold collectedAnswers
    rw [hAP]
  have hmiss : missingLetters (t :: c2Tail) = [] := by
    unfold missingLetters answerKeys
    rw [hca]
    rfl
  have hex : extraLetters (t :: c2Tail) = [] := by
    unfold extraLetters answerKeys
    rw [hca]
    rfl
  have hdecl : declaredLetter (t :: c2Tail) = some 'A' := by
    unfold declaredLetter
    rw [hAP]
    decide
  unfold parse_question_block
  rw [hbe, hqe, hmiss, hex, hdecl, hQP]
  simp only [List.isEmpty_nil, Bool.not_true, Bool.or_self, Bool.false_eq_true, if_false,
    hca]
  rfl

/-- Witness for C2 (corrected): at the concrete question line the normalized text
still contains the bracketed annotation. -/
theorem c2_normalization_is_qnum_strip_only_witness :
    parse_question_block (toL "What is DNS? [easy]" :: c2Tail)
      = .ok { questionText := stripL (stripQNum (toL "What is DNS? [easy]")),
              questionType := mcLit,
              optionA := toL "red", optionB := toL "green", optionC := toL "blue",
              optionD := toL "teal", correctIndex := 1 } ∧
    stripL (stripQNum (toL "What is DNS? [easy]")) = toL "What is DNS? [easy]" :=
  ⟨c2_normalization_is_qnum_strip_only (toL "What is DNS? [easy]")
      (by decide) (by decide) (by decide) (by decide), by decide⟩

/-! ## Claim C4 -/

/-- C4 counterexample: the line `E. five` does not fail the block — it is silently
absorbed into option D, and a record is emitted. -/
theorem c4_unexpected_letter_counterexample :
    parse_question_block
      [toL "Which?", toL "A. one", toL "B. two", toL "C. three", toL "D. four",
       toL "E. five", toL "ANSWER: A"]
      = .ok { questionText := toL "Which?", questionType := mcLit,
              optionA := toL "one", optionB := toL "two", optionC := toL "three",
              optionD := toL "four E. five", correctIndex := 1 } := by decide

/-- C4 corrected: a marker letter outside A–D never matches the answer-line
pattern; while an answer is active, such a line (whose first character is outside
`ABCDabc` and which does not start with `answer:`) is appended to the current
answer's text instead of failing the block. -/
theorem c4_letter_outside_ad_absorbed (c : Char) (t : Line) (rest : List Line)
    (cur : Option Char) (txt : Line) (d : AnswerDict)
    (hc : isAnswerLetter c = false) (hsp : isPySpace c = false)
    (hab : inABCDabc c = false) (hlow : toLowerCh c ≠ 'a')
    (hcur : cur.isSome = true) (ht : Trimmed t) (hne : t ≠ []) :
    matchAnswerLine (c :: '.' :: ' ' :: t) = none ∧
    extractAnswers ((c :: '.' :: ' ' :: t) :: rest) cur txt d
      = extractAnswers rest cur (txt ++ ' ' :: (c :: '.' :: ' ' :: t)) d := by
  have hs : stripL (c :: '.' :: ' ' :: t) = c :: '.' :: ' ' :: t :=
    strip_marker_line c '.' t hsp ht.2 hne
  have hm : matchAnswerLine (c :: '.' :: ' ' :: t) = none := by
    unfold matchAnswerLine
    rw [lstrip_cons_of_nonspace c _ hsp]
    simp [hc]
  refine ⟨hm, ?_⟩
  have hstep := extract_continuation_step (c :: '.' :: ' ' :: t) rest cur txt d hcur
    (by rw [hs]; simp)
    (by rw [hs]; exact hm)
    (by rw [hs]; exact hab)
    (by
      rw [hs]
      unfold startsWithAnswerColon
      simp only [List.map_cons]
      rw [show toL "answer:" = 'a' :: toL "nswer:" from rfl, List.isPrefixOf_cons₂]
      simp [beq_eq_false_iff_ne.mpr (Ne.symm hlow)])
  rw [hstep, hs]

/-! ## Claim C5 -/

/-- C5 counterexample: the continuation line `Big system` is non-empty, does not
start with an answer-letter marker, and does not start with `ANSWER:`, yet it is
not appended — answer extraction stops and the block fails. -/
theorem c5_continuation_counterexample :
    parse_question_block
      [toL "Q?", toL "A. Domain", toL "Big system", toL "B. two", toL "C. three",
       toL "D. four", toL "ANSWER: A"]
      = .fail (.answerSetMismatch ['B', 'C', 'D'] []) ∧
    stripL (toL "Big system") ≠ [] ∧
    matchAnswerLine (stripL (toL "Big system")) = none ∧
    startsWithAnswerColon (stripL (toL "Big system")) = false := by
  refine ⟨by decide, by decide, by decide, by decide⟩

/-- C5 corrected: a non-empty non-marker non-`ANSWER:` line continues the current
answer only if additionally its first character is not one of `ABCDabc`; then its
stripped text is appended with a separating space. -/
theorem c5_continuation_requires_noninitial_letter (l : Line) (rest : List Line)
    (cur : Option Char) (txt : Line) (d : AnswerDict)
    (hcur : cur.isSome = true) (h1 : stripL l ≠ [])
    (h2 : matchAnswerLine (stripL l) = none)
    (h3 : inABCDabc ((stripL l).headD ' ') = false)
    (h4 : startsWithAnswerColon (stripL l) = false) :
    extractAnswers (l :: rest) cur txt d
      = extractAnswers rest cur (txt ++ ' ' :: stripL l) d :=
  extract_continuation_step l rest cur txt d hcur h1 h2 h3 h4

/-- Witness for C5 (corrected): `A. Domain` then `Name System` combine into
`Domain Name System`. -/
theorem c5_continuation_requires_noninitial_letter_witness :
    extractAnswers [toL "Name System", toL "ANSWER: A"] (some 'A') (toL "Domain") []
      = extractAnswers [toL "ANSWER: A"] (some 'A')
          (toL "Domain" ++ ' ' :: stripL (toL "Name System")) [] ∧
    toL "Domain" ++ ' ' :: stripL (toL "Name System") = toL "Domain Name System" :=
  ⟨c5_continuation_requires_noninitial_letter (toL "Name System") [toL "ANSWER: A"]
      (some 'A') (toL "Domain") [] (by decide) (by decide) (by decide) (by decide)
      (by decide), by decide⟩

/-- Witness for C4 (corrected): `E. five` is appended to the active option D text. -/
theorem c4_letter_outside_ad_absorbed_witness :
    matchAnswerLine ('E' :: '.' :: ' ' :: toL "five") = none ∧
    extractAnswers (('E' :: '.' :: ' ' :: toL "five") :: [toL "ANSWER: A"]) (some 'D')
        (toL "four") [('A', toL "one"), ('B', toL "two"), ('C', toL "three")]
      = extractAnswers [toL "ANSWER: A"] (some 'D')
          (toL "four" ++ ' ' :: ('E' :: '.' :: ' ' :: toL "five"))
          [('A', toL "one"), ('B', toL "two"), ('C', toL "three")] :=
  c4_letter_outside_ad_absorbed 'E' (toL "five") [toL "ANSWER: A"] (some 'D')
    (toL "four") [('A', toL "one"), ('B', toL "two"), ('C', toL "three")]
    (by decide) (by decide) (by decide) (by decide) (by decide) (by decide) (by decide)

/-! ## Claim C8 -/

/-- C8 counterexample: a block with four valid answers whose only declaration-like
line is `ANSWER: E` fails with `missingDeclaration`, not `invalidDeclaredLetter`. -/
theorem c8_invalid_declared_letter_counterexample :
    parse_question_block
      [toL "Which?", toL "A. one", toL "B. two", toL "C. three", toL "D. four",
       toL "ANSWER: E"]
      = .fail .missingDeclaration := by decide

/-- C8 corrected: the declaration pattern only matches letters A–D, so a
declaration line whose letter is outside A–D is not recognized at all and such a
block fails with `missingDeclaration`; the `invalidDeclaredLetter` check is
unreachable. -/
theorem c8_decl_pattern_rejects_non_ad (x : Char) (hx : isAnswerLetter x = false) :
    matchAnswerDecl (declLine x) = none ∧
    parse_question_block
      [toL "Which?", toL "A. one", toL "B. two", toL "C. three", toL "D. four",
       toL "ANSWER: E"]
      = .fail .missingDeclaration := by
  refine ⟨?_, by decide⟩
  rw [matchAnswerDecl_declLine, hx]
  simp

/-- Witness for C8 (corrected): instantiated at the letter `E`. -/
theorem c8_decl_pattern_rejects_non_ad_witness :
    matchAnswerDecl (declLine 'E') = none ∧
    parse_question_block
      [toL "Which?", toL "A. one", toL "B. two", toL "C. three", toL "D. four",
       toL "ANSWER: E"]
      = .fail .missingDeclaration :=
  c8_decl_pattern_rejects_non_ad 'E' (by decide)

/-- C9 counterexample: the quizizz exporter modifies the record in place — after
the export the record list has gained an eighth cell, so it is not unchanged. -/
theorem c9_export_mutates_counterexample :
    quizizz_excel_rows [row9] = [row9 ++ [Cell.num 60]] ∧
    row9 ++ [Cell.num 60] ≠ row9 := by
  refine ⟨rfl, by decide⟩

/-- C9 corrected: both exporters leave the seven record fields intact — the gform
exporter does not modify the records at all, while the quizizz exporter appends an
eighth Time cell (60) to each record in place, preserving the first seven cells. -/
theorem c9_export_preserves_seven_fields (data : List RecRow)
    (h : ∀ r ∈ data, r.length = 7) :
    (quizizz_excel_rows data).map (fun r => r.take 7) = data ∧
    (gform_excel_rows data).2 = data ∧
    quizizz_excel_rows data = data.map (fun r => r ++ [Cell.num 60]) := by
  refine ⟨?_, rfl, rfl⟩
  unfold quizizz_excel_rows
  rw [List.map_map]
  induction data with
  | nil => rfl
  | cons r rs ih =>
    have h7 := h r (by simp)
    have hh : (r ++ [Cell.num 60]).take 7 = r := by
      rw [← h7]
      exact List.take_left r [Cell.num 60]
    simp only [List.map_cons, Function.comp_apply, hh]
    rw [ih (fun x hx => h x (List.mem_cons_of_mem r hx))]

/-- Witness for C9 (corrected): instantiated at a singleton record list. -/
theorem c9_export_preserves_seven_fields_witness :
    (quizizz_excel_rows [row9]).map (fun r => r.take 7) = [row9] ∧
    (gform_excel_rows [row9]).2 = [row9] ∧
    quizizz_excel_rows [row9] = [row9].map (fun r => r ++ [Cell.num 60]) :=
  c9_export_preserves_seven_fields [row9] (by decide)

/-- Witness for C1: a concrete well-formed block with declaration `ANSWER: b`
parses to a record with `correctIndex = 2`. -/
theorem c1_wellformed_block_correct_index_witness :
    parse_question_block
      (wfBlock [toL "What is DNS?"] true true true true false false false false
        (toL "Domain Name System") (toL "DHCP") (toL "Data Naming") (toL "Security")
        ⟨1, by omega⟩ true)
      = .ok { questionText := stripL (stripQNum (joinSpace ([toL "What is DNS?"].map stripL))),
              questionType := mcLit,
              optionA := toL "Domain Name System", optionB := toL "DHCP",
              optionC := toL "Data Naming", optionD := toL "Security",
              correctIndex := 2 } :=
  c1_wellformed_block_correct_index [toL "What is DNS?"]
    (toL "Domain Name System") (toL "DHCP") (toL "Data Naming") (toL "Security")
    true true true true false false false false ⟨1, by omega⟩ true
    (by decide) (by decide) (by decide) (by decide) (by decide) (by decide)
    (by decide) (by decide) (by decide) (by decide)
